import Mathlib

/-!
Verification model of the InstantQR-UI website-optimization tool
(src/app.py, src/core/util.py, src/core/model.py).

The repository drives two LLM-judged retry loops over a headless browser:
`process_text_optimization` and `process_image_optimization`.  Network
services, the browser and the LLM agents are external collaborators; they
enter the model as oracle parameters (HTTP status functions, per-iteration
agent outputs).  Everything the repository itself computes — the image
inventory filter, the loop control flow, file paths, the `www.` string
rewrites, the viewport resizing — is transcribed directly from the source.

Python/JS string primitives are modelled at the character level because the
repository only ever applies them to ASCII URLs and paths; each model
definition documents the source call it stands for.
-/

namespace InstantQR

/-- ASCII case folding of one character, the behaviour of Python str.lower
on the ASCII range (the repository applies it to URLs). -/
def charLower (c : Char) : Char :=
  if 'A' ≤ c ∧ c ≤ 'Z' then Char.ofNat (c.toNat + 32) else c

/-- Python str.lower, as called in `src.lower()` (src/app.py:277). -/
def pyLower (s : String) : String := String.mk (s.toList.map charLower)

/-- Suffix test on character lists. -/
def listEndsWith (s suffix : List Char) : Bool :=
  List.isPrefixOf suffix.reverse s.reverse

/-- Python str.endswith, as called in endswith with suffix ".svg" (src/app.py:277). -/
def pyEndsWith (s suffix : String) : Bool := listEndsWith s.toList suffix.toList

/-- Does the character list start with the four characters `www.` ? -/
def startsWithWww : List Char → Bool
  | c1 :: c2 :: c3 :: c4 :: _ => c1 == 'w' && c2 == 'w' && c3 == 'w' && c4 == '.'
  | _ => false

/-- Python str.replace of "www." by the empty string: every occurrence of `www.` is removed,
scanning left to right and resuming after each removal.  Used on the host in
get_site_folder (src/core/util.py:147) and on the site name in
process_image_optimization (src/app.py:359). -/
def stripWwwAux : List Char → List Char
  | 'w' :: 'w' :: 'w' :: '.' :: rest => stripWwwAux rest
  | c :: rest => c :: stripWwwAux rest
  | [] => []

/-- String form of `stripWwwAux`. -/
def stripWww (s : String) : String := String.mk (stripWwwAux s.toList)

/-- JavaScript String.replace of "www." by the empty string: only the
FIRST occurrence of `www.` anywhere in the string is removed.  This is the
URL normalization of the injected matching script (src/app.py:436-437). -/
def dropFirstWwwAux : List Char → List Char
  | [] => []
  | c :: rest =>
    if startsWithWww (c :: rest) then (c :: rest).drop 4 else c :: dropFirstWwwAux rest

/-- The URL normalization used for image matching (src/app.py:430-444):
url.replace of "www." by the empty string in JavaScript. -/
def normalizeUrl (u : String) : String := String.mk (dropFirstWwwAux u.toList)

/-- Does `www.` occur anywhere in the character list? -/
def containsWwwAux : List Char → Bool
  | [] => false
  | c :: rest => startsWithWww (c :: rest) || containsWwwAux rest

/-- Does `www.` occur anywhere in the string? -/
def containsWww (u : String) : Bool := containsWwwAux u.toList

/-- Host part of an absolute URL: the text between `://` and the next `/`.
Stands for urlparse(url).netloc of the Python standard library on URLs of
the shape scheme://host/path. -/
def hostChars : List Char → List Char
  | ':' :: '/' :: '/' :: rest => rest.takeWhile (fun c => c != '/')
  | _ :: rest => hostChars rest
  | [] => []

/-- String form of `hostChars`. -/
def hostOf (u : String) : String := String.mk (hostChars u.toList)

/-- Evaluation verdict (src/core/model.py): feedback plus a score that the
pydantic schema constrains to "pass" or "fail".  The score is kept as a
string because the code only ever compares it with "pass". -/
structure Evaluation where
  feedback : String
  score : String
  deriving DecidableEq

/-- Coder agent output (src/core/model.py): a browser-console script and a
human-readable description of the change. -/
structure JSOutput where
  script : String
  change_description : String
  deriving DecidableEq

/-- Image specialist output (src/core/model.py): the selected image URL and
the desired change. -/
structure ImageChange where
  image_url : String
  change_description : String
  deriving DecidableEq

/-- One `<img>` element as the collection loop of process_image_optimization
observes it: its src and alt attributes (None when absent) and its natural
dimensions reported by the browser. -/
structure PageImage where
  src : Option String
  alt : Option String
  naturalWidth : Nat
  naturalHeight : Nat
  deriving DecidableEq

/-- One entry of the image inventory handed to the image specialist
(src/app.py:291-297). -/
structure ImageEntry where
  src : String
  alt : Option String
  width : Nat
  height : Nat
  size : Nat
  deriving DecidableEq

/-- The admission test of the collection loop (src/app.py:271-297) for an
image whose src attribute is the non-null string `s`:
the test that src is non-empty and src.lower() does not end with ".svg",
then is_image_accessible on
the absolutized src (src/core/util.py:11-17, a HEAD request that must answer
status 200), then `width > 300 and height > 300`.  `head` abstracts the HEAD
status of a URL; `absolutize` abstracts urljoin(url, src). -/
def admitsImage (head : String → Nat) (absolutize : String → String)
    (img : PageImage) (s : String) : Bool :=
  (!(s == "")) && (!(pyEndsWith (pyLower s) ".svg"))
    && (head (absolutize s) == 200)
    && decide (300 < img.naturalWidth) && decide (300 < img.naturalHeight)

/-- The inventory entry built for an admitted image (src/app.py:291-297). -/
def entryOf (absolutize : String → String) (img : PageImage) (s : String) : ImageEntry :=
  ⟨absolutize s, img.alt, img.naturalWidth, img.naturalHeight,
   img.naturalWidth * img.naturalHeight⟩

/-- What one turn of the collection loop contributes for one img element
(src/app.py:271-297): nothing when the src attribute is missing or the
admission test fails, the entry otherwise. -/
def admittedEntry (head : String → Nat) (absolutize : String → String)
    (img : PageImage) : List ImageEntry :=
  match img.src with
  | some s =>
    if admitsImage head absolutize img s then [entryOf absolutize img s] else []
  | none => []

/-- The collection loop over all img elements (src/app.py:271-297), in page
order. -/
def collectImages (head : String → Nat) (absolutize : String → String) :
    List PageImage → List ImageEntry
  | [] => []
  | img :: rest =>
    admittedEntry head absolutize img ++ collectImages head absolutize rest

/-- Insert an entry into a descending-by-size list, after all entries of
size at least its own: the placement a stable sort gives a later element. -/
def insertDesc (e : ImageEntry) : List ImageEntry → List ImageEntry
  | [] => [e]
  | x :: xs => if e.size ≤ x.size then x :: insertDesc e xs else e :: x :: xs

/-- Stable insertion sort, consuming the input in order. -/
def sortDescAux : List ImageEntry → List ImageEntry → List ImageEntry
  | [], acc => acc
  | e :: rest, acc => sortDescAux rest (insertDesc e acc)

/-- Model of the call image_list.sort with key size and reverse set, at
src/app.py:300: stable descending sort by size.  A stable sort by a total
preorder has a unique result, so this structurally recursive insertion sort
computes exactly the list the stable Python sort produces. -/
def sortDescBySize (l : List ImageEntry) : List ImageEntry := sortDescAux l []

/-- The inventory shown to the image specialist (src/app.py:299-303): the
collected entries sorted by size in descending order and truncated to the
first 10. -/
def imageInventory (head : String → Nat) (absolutize : String → String)
    (imgs : List PageImage) : List ImageEntry :=
  (sortDescBySize (collectImages head absolutize imgs)).take 10

/-- The eligibility predicate exactly as claim C1 words it: natural width
and height above 300, the ABSOLUTIZED src does not end with ".svg"
(case-sensitive, as written), and a HEAD request to the absolutized src
answers 200.  Stated from the spec sentence, for comparison with the
`admitsImage` of the code. -/
def claimC1Eligible (head : String → Nat) (absolutize : String → String)
    (img : PageImage) (s : String) : Bool :=
  decide (300 < img.naturalWidth) && decide (300 < img.naturalHeight)
    && (!(pyEndsWith (absolutize s) ".svg"))
    && (head (absolutize s) == 200)

/-- Events of one optimization run, in the order the code performs them. -/
inductive Ev where
  | proposerCall
  | specialistCall
  | fileWrite (path : String)
  | scriptExec (script : String)
  | viewportShot (height : Nat)
  | fullShot
  | verdictEv (e : Evaluation)
  | logAppend (path : String) (line : String)
  | feedbackAdd (t : String)
  | download (status : Nat)
  | genCall
  | uploadCall
  | pageMutate (newSrc : String)
  | browserClose
  deriving DecidableEq

/-- Page state of the text run: viewport size plus the scripts executed so
far (the observable DOM mutations), most recent last. -/
structure PageView where
  width : Nat
  height : Nat
  executed : List String
  deriving DecidableEq

/-- Viewport growth `int(viewport_height * 1.1)` (src/core/util.py:110,
src/app.py:581).  For every height reachable in this program (the chain
starting at 800) the Python float expression agrees with the exact rational
floor `11 * h / 10`. -/
def bump (h : Nat) : Nat := 11 * h / 10

/-- take_viewport_screenshot (src/core/util.py:106-114): the call FIRST
resizes the viewport to 110% of its current height (width unchanged) and
only then captures.  The screenshot is modelled symbolically as the list of
scripts applied so far paired with the capture height. -/
def take_viewport_screenshot (pv : PageView) : PageView × (List String × Nat) :=
  (⟨pv.width, bump pv.height, pv.executed⟩, (pv.executed, bump pv.height))

/-- get_site_folder (src/core/util.py:135-152): `host` stands for
urlparse(url).netloc; every occurrence of `www.` is removed by str.replace
and the folder `sites/<host>` is used (os.makedirs side effect elided). -/
def get_site_folder (host : String) : String := "sites/" ++ stripWww host

/-- The per-site image folder of process_image_optimization
(src/app.py:358-361): os.path.join of "sites", the site name and "img",
where the site name is urlparse(url).netloc with "www." removed. -/
def imageSitesDir (host : String) : String := "sites/" ++ stripWww host ++ "/img"

/-- Oracle for one iteration of the text loop: what the coder agent and the
evaluator agent answer on that iteration. -/
structure TextIter where
  coderOut : JSOutput
  verdict : Evaluation
  deriving DecidableEq

/-- The dictionary process_text_optimization returns (src/app.py:675-680);
the screenshot is the symbolic pair of `take_viewport_screenshot`. -/
structure TextResult where
  coder_response : String
  evaluator_response : String
  screenshot : List String × Nat
  script : String
  deriving DecidableEq

/-- The retry loop of process_text_optimization (src/app.py:619-672).  Each
iteration: run the coder, write script.js, execute the script, take a
viewport screenshot, run the evaluator; on score "pass" execute the script
once more, take the final screenshot, append the change description to
`<folder>/log.txt` and break; otherwise append the feedback to the
conversation and loop.  Returns the event trace, the final page state and
the accepted result (none when the oracle list ran out, i.e. the loop is
still running). -/
def textLoop (folder : String) (pv : PageView) :
    List TextIter → List Ev × PageView × Option TextResult
  | [] => ([], pv, none)
  | it :: rest =>
    let pv1 : PageView := ⟨pv.width, pv.height, pv.executed ++ [it.coderOut.script]⟩
    let pv2 := (take_viewport_screenshot pv1).1
    let pre : List Ev :=
      [Ev.proposerCall, Ev.fileWrite (folder ++ "/script.js"),
       Ev.scriptExec it.coderOut.script, Ev.viewportShot pv2.height,
       Ev.verdictEv it.verdict]
    if it.verdict.score = "pass" then
      let pv3 : PageView := ⟨pv2.width, pv2.height, pv2.executed ++ [it.coderOut.script]⟩
      let shot := take_viewport_screenshot pv3
      (pre ++ [Ev.scriptExec it.coderOut.script, Ev.viewportShot shot.1.height,
               Ev.logAppend (folder ++ "/log.txt")
                 ("- " ++ it.coderOut.change_description ++ "\n")],
       shot.1,
       some ⟨it.coderOut.change_description, it.verdict.feedback, shot.2,
             it.coderOut.script⟩)
    else
      let r := textLoop folder pv2 rest
      (pre ++ Ev.feedbackAdd it.verdict.feedback :: r.1, r.2.1, r.2.2)

/-- process_text_optimization (src/app.py:531-680).  `host` stands for
urlparse(url).netloc.  The browser opens at 1920x800; after the load waits
the code explicitly resizes the viewport to 110% height (src/app.py:577-582),
takes one pre-loop viewport screenshot, then enters the retry loop; on
accept the browser is closed and the result dictionary returned. -/
def process_text_optimization (host : String) (iters : List TextIter) :
    List Ev × Option TextResult :=
  let folder := get_site_folder host
  let pv1 : PageView := ⟨1920, bump 800, []⟩
  let start := take_viewport_screenshot pv1
  let r := textLoop folder start.1 iters
  (Ev.viewportShot start.1.height :: r.1
     ++ (if r.2.2.isSome then [Ev.browserClose] else []),
   r.2.2)

/-- upload_to_github (src/core/util.py:154-219).  `token` is the
GITHUB_TOKEN environment variable; `putOutcome` is the outcome of
requests.put — none when the request raised, some status otherwise.  The
preliminary GET for an existing sha only changes the request payload, never
the returned URL.  The function returns the raw URL on status 200 or 201 and
None in every failure case; it never raises. -/
def upload_to_github (token : Option String) (putOutcome : Option Nat)
    (repoName branch basename : String) : Option String :=
  match token with
  | none => none
  | some _ =>
    match putOutcome with
    | none => none
    | some status =>
      if status == 201 || status == 200 then
        some ("https://raw.githubusercontent.com/" ++ repoName ++ "/"
              ++ branch ++ "/" ++ basename)
      else none

/-- Python str() interpolation of an optional string into an f-string:
None prints as the four characters "None". -/
def pyStr : Option String → String
  | none => "None"
  | some s => s

/-- Oracle for one pass of the image retry loop: the HTTP status of the
image download, whether the PIL/generation/decoding chain succeeds (an
exception there hits the outer handler and breaks), the outcome of the
upload PUT, whether the wait/screenshot block succeeds (an exception there
hits the inner handler and breaks), the evaluator verdict, and the fresh
uuid-based file name chosen for the generated image. -/
structure ImgIter where
  downloadStatus : Nat
  genOk : Bool
  putOutcome : Option Nat
  observeOk : Bool
  verdict : Evaluation
  fname : String
  deriving DecidableEq

/-- The retry loop of process_image_optimization (src/app.py:381-519).
Each pass: download the candidate image (non-200 breaks); convert and send
it to the image generation service; write the generated bytes under the
per-site image folder; call upload_to_github; ALWAYS build the matching
script with the upload result interpolated (str(None) = "None" when the
upload failed) and execute it in the page; then wait and take the full-page
screenshot, write after_replacement.png, run the evaluator; on "pass" append
the change description to `<sitesDir>/log.txt` and break, otherwise append
the feedback and loop.  `lastNew` threads the Python local new_image_url
(none while never bound).  Returns the trace, the final binding and whether
the loop exited (false when the oracle list ran out). -/
def imageLoop (sitesDir : String) (token : Option String) (repoName : String)
    (ic : ImageChange) (lastNew : Option (Option String)) :
    List ImgIter → List Ev × Option (Option String) × Bool
  | [] => ([], lastNew, false)
  | o :: rest =>
    if o.downloadStatus ≠ 200 then ([Ev.download o.downloadStatus], lastNew, true)
    else if o.genOk = false then ([Ev.download o.downloadStatus], lastNew, true)
    else
      let up := upload_to_github token o.putOutcome repoName "main" o.fname
      let applied : List Ev :=
        [Ev.download o.downloadStatus, Ev.genCall,
         Ev.fileWrite (sitesDir ++ "/" ++ o.fname), Ev.uploadCall,
         Ev.pageMutate (pyStr up)]
      if o.observeOk = false then (applied, some up, true)
      else
        let observed := applied ++
          [Ev.fullShot, Ev.fileWrite (sitesDir ++ "/after_replacement.png"),
           Ev.verdictEv o.verdict]
        if o.verdict.score = "pass" then
          (observed ++ [Ev.logAppend (sitesDir ++ "/log.txt")
                          ("- " ++ ic.change_description ++ "\n")],
           some up, true)
        else
          let r := imageLoop sitesDir token repoName ic (some up) rest
          (observed ++ Ev.feedbackAdd o.verdict.feedback :: r.1, r.2.1, r.2.2)

/-- The dictionary process_image_optimization returns on the normal exit
(src/app.py:522-529); fields not touched by any claim (screenshot, js_code,
evaluator feedback) are elided. -/
structure ImgResult where
  image_specialist_response : String
  original_image_url : String
  new_image_url : Option String
  deriving DecidableEq

/-- Result of a modelled run: still running (the oracle list ran out inside
the loop) or returned with Python value None or a dictionary. -/
inductive RunOutcome (α : Type) where
  | running : RunOutcome α
  | returned : Option α → RunOutcome α
  deriving DecidableEq

/-- process_image_optimization (src/app.py:235-529).  `host` stands for
urlparse(url).netloc; `hasFinalOutput` models
the hasattr test for final_output on the specialist result and `ic` the
final output.  Order of the source: build the inventory; when it is empty,
close the browser and return None; otherwise take the full-page screenshot,
run the specialist once; when final_output is missing, close and return
None; otherwise create the per-site image folder and enter the retry loop;
after the loop close the browser and return the result dictionary. -/
def process_image_optimization (host : String) (head : String → Nat)
    (absolutize : String → String) (imgs : List PageImage)
    (hasFinalOutput : Bool) (ic : ImageChange) (token : Option String)
    (repoName : String) (iters : List ImgIter) : List Ev × RunOutcome ImgResult :=
  if imageInventory head absolutize imgs = [] then
    ([Ev.browserClose], RunOutcome.returned none)
  else if hasFinalOutput = false then
    ([Ev.fullShot, Ev.specialistCall, Ev.browserClose], RunOutcome.returned none)
  else
    let r := imageLoop (imageSitesDir host) token repoName ic none iters
    if r.2.2 then
      (Ev.fullShot :: Ev.specialistCall :: r.1 ++ [Ev.browserClose],
       RunOutcome.returned (some ⟨ic.change_description, ic.image_url, r.2.1.join⟩))
    else
      (Ev.fullShot :: Ev.specialistCall :: r.1, RunOutcome.running)

/-- Recognizer for coder-agent invocations. -/
def isProposerCall : Ev → Bool
  | Ev.proposerCall => true
  | _ => false

/-- Recognizer for image-specialist invocations. -/
def isSpecialistCall : Ev → Bool
  | Ev.specialistCall => true
  | _ => false

/-- Recognizer for change-log appends. -/
def isLogAppend : Ev → Bool
  | Ev.logAppend _ _ => true
  | _ => false

/-- Recognizer for file writes. -/
def isFileWrite : Ev → Bool
  | Ev.fileWrite _ => true
  | _ => false

/-- Recognizer for image-generation service calls. -/
def isGenCall : Ev → Bool
  | Ev.genCall => true
  | _ => false

/-- Recognizer for upload attempts. -/
def isUploadCall : Ev → Bool
  | Ev.uploadCall => true
  | _ => false

/-- Recognizer for image download attempts. -/
def isDownload : Ev → Bool
  | Ev.download _ => true
  | _ => false

/-- The heights at which viewport screenshots were captured, in order. -/
def shotHeights (tr : List Ev) : List Nat :=
  tr.filterMap (fun e => match e with | Ev.viewportShot h => some h | _ => none)

/-- The score of the most recent verdict after one event (none stays when
the event is not a verdict). -/
def gateStep (last : Option String) (e : Ev) : Option String :=
  match e with
  | Ev.verdictEv v => some v.score
  | _ => last

/-- Scans a trace and checks that every log append happens while the most
recent evaluator verdict is exactly "pass" (and that some verdict exists). -/
def acceptGatedB : Option String → List Ev → Bool
  | _, [] => true
  | last, e :: rest =>
    (match e with
     | Ev.logAppend _ _ => last == some "pass"
     | _ => true) && acceptGatedB (gateStep last e) rest

/-- Content of the file at path `p` after replaying the append events of a
trace over initial content `c`. -/
def appendLogAt (p : String) (c : String) : List Ev → String
  | [] => c
  | e :: rest =>
    appendLogAt p
      (match e with
       | Ev.logAppend q line => if q = p then c ++ line else c
       | _ => c) rest

/-- The lines appended to the file at path `p` by a trace, in order. -/
def logLinesAt (p : String) (tr : List Ev) : List String :=
  tr.filterMap (fun e =>
    match e with
    | Ev.logAppend q line => if q = p then some line else none
    | _ => none)

/-- The path of the text-optimization change log for a host. -/
def textLogPath (host : String) : String := get_site_folder host ++ "/log.txt"

/-- Content of the text change log after a sequence of text-optimization
runs, each driven by its own oracle list, starting from content `c`. -/
def runsLog (host : String) (c : String) : List (List TextIter) → String
  | [] => c
  | r :: rest =>
    runsLog host (appendLogAt (textLogPath host) c (process_text_optimization host r).1) rest

/-- Number of iterations the text loop starts on a given oracle list: every
prefix up to and including the first passing verdict. -/
def itersStarted : List TextIter → Nat
  | [] => 0
  | it :: rest => 1 + (if it.verdict.score = "pass" then 0 else itersStarted rest)

/-- Page-level eligibility of one img element: false when the src attribute
is missing, the admission test otherwise. -/
def pageEligible (head : String → Nat) (absolutize : String → String)
    (img : PageImage) : Bool :=
  match img.src with
  | some s => admitsImage head absolutize img s
  | none => false

/-- Score of the most recent verdict after scanning a whole trace segment. -/
def lastScoreFrom (last : Option String) : List Ev → Option String
  | [] => last
  | e :: rest => lastScoreFrom (gateStep last e) rest

/-- Concatenation of a list of log lines. -/
def concatLines : List String → String
  | [] => ""
  | l :: ls => l ++ concatLines ls

/-- Oracle of the scenario of claim C3: the evaluator fails the first two
attempts and passes the third. -/
def c3ScenarioIters (c1 c2 c3 : JSOutput) (f1 f2 f3 : String) : List TextIter :=
  [⟨c1, ⟨f1, "fail"⟩⟩, ⟨c2, ⟨f2, "fail"⟩⟩, ⟨c3, ⟨f3, "pass"⟩⟩]

/-- Concrete HEAD oracle answering 200 everywhere, for witnesses. -/
def headAll200 : String → Nat := fun _ => 200

/-- Concrete absolutizer modelling urljoin against the page root of
http://a.com/, for witnesses. -/
def absFromRoot : String → String := fun s => "http://a.com/" ++ s

/-- Concrete image with an upper-case SVG extension, 400 by 400 pixels. -/
def svgUpper : PageImage := ⟨some "hero.SVG", none, 400, 400⟩

/-- Concrete eligible PNG image, 400 by 400 pixels. -/
def bigImg : PageImage := ⟨some "a.png", none, 400, 400⟩

/-- Concrete image specialist output, for witnesses. -/
def icEx : ImageChange := ⟨"http://a.com/a.png", "desc"⟩

theorem insertDesc_perm (e : ImageEntry) (l : List ImageEntry) :
    (insertDesc e l).Perm (e :: l) := by
  induction l with
  | nil => exact List.Perm.refl _
  | cons x xs ih =>
    simp only [insertDesc]
    split
    · exact (ih.cons x).trans (List.Perm.swap e x xs)
    · exact List.Perm.refl _

theorem sortDescAux_perm : ∀ l acc : List ImageEntry, (sortDescAux l acc).Perm (l ++ acc)
  | [], acc => by simp [sortDescAux]
  | e :: rest, acc => by
    have h1 := sortDescAux_perm rest (insertDesc e acc)
    have h2 : (rest ++ insertDesc e acc).Perm (rest ++ (e :: acc)) :=
      (insertDesc_perm e acc).append_left rest
    have h3 : (rest ++ (e :: acc)).Perm (e :: (rest ++ acc)) := List.perm_middle
    simpa [sortDescAux] using (h1.trans h2).trans h3

theorem sortDescBySize_perm (l : List ImageEntry) : (sortDescBySize l).Perm l := by
  simpa [sortDescBySize] using sortDescAux_perm l []

theorem insertDesc_sorted (e : ImageEntry) (l : List ImageEntry)
    (h : l.Pairwise (fun a b => b.size ≤ a.size)) :
    (insertDesc e l).Pairwise (fun a b => b.size ≤ a.size) := by
  induction l with
  | nil => simp [insertDesc]
  | cons x xs ih =>
    rw [List.pairwise_cons] at h
    simp only [insertDesc]
    split
    · rename_i hle
      rw [List.pairwise_cons]
      refine ⟨fun b hb => ?_, ih h.2⟩
      rcases List.mem_cons.mp ((insertDesc_perm e xs).mem_iff.mp hb) with rfl | hb2
      · exact hle
      · exact h.1 b hb2
    · rename_i hgt
      push_neg at hgt
      rw [List.pairwise_cons]
      refine ⟨fun b hb => ?_, List.pairwise_cons.mpr h⟩
      rcases List.mem_cons.mp hb with rfl | hb2
      · exact hgt.le
      · exact (h.1 b hb2).trans hgt.le

theorem sortDescAux_sorted : ∀ l acc : List ImageEntry,
    acc.Pairwise (fun a b => b.size ≤ a.size) →
    (sortDescAux l acc).Pairwise (fun a b => b.size ≤ a.size)
  | [], _, h => h
  | e :: rest, acc, h => sortDescAux_sorted rest _ (insertDesc_sorted e acc h)

theorem sortDescBySize_sorted (l : List ImageEntry) :
    (sortDescBySize l).Pairwise (fun a b => b.size ≤ a.size) :=
  sortDescAux_sorted l [] (by simp)

theorem mem_admittedEntry {head : String → Nat} {absolutize : String → String}
    {img : PageImage} {e : ImageEntry} :
    e ∈ admittedEntry head absolutize img ↔
      ∃ s, img.src = some s ∧ admitsImage head absolutize img s = true
        ∧ e = entryOf absolutize img s := by
  rcases hsrc : img.src with _ | s
  · simp [admittedEntry, hsrc]
  · by_cases hadm : admitsImage head absolutize img s = true
    · simp [admittedEntry, hsrc, hadm]
    · simp [admittedEntry, hsrc, hadm]

theorem mem_collectImages {head : String → Nat} {absolutize : String → String}
    {imgs : List PageImage} {e : ImageEntry} :
    e ∈ collectImages head absolutize imgs ↔
      ∃ img ∈ imgs, ∃ s, img.src = some s ∧ admitsImage head absolutize img s = true
        ∧ e = entryOf absolutize img s := by
  induction imgs with
  | nil => simp [collectImages]
  | cons img rest ih =>
    simp only [collectImages, List.mem_append, mem_admittedEntry, ih, List.mem_cons]
    constructor
    · rintro (⟨s, hs, ha, he⟩ | ⟨i, hi, s, hs, ha, he⟩)
      · exact ⟨img, Or.inl rfl, s, hs, ha, he⟩
      · exact ⟨i, Or.inr hi, s, hs, ha, he⟩
    · rintro ⟨i, rfl | hi, s, hs, ha, he⟩
      · exact Or.inl ⟨s, hs, ha, he⟩
      · exact Or.inr ⟨i, hi, s, hs, ha, he⟩

theorem length_admittedEntry (head : String → Nat) (absolutize : String → String)
    (img : PageImage) :
    (admittedEntry head absolutize img).length
      = if pageEligible head absolutize img then 1 else 0 := by
  rcases hsrc : img.src with _ | s
  · simp [admittedEntry, pageEligible, hsrc]
  · by_cases hadm : admitsImage head absolutize img s = true
    · simp [admittedEntry, pageEligible, hsrc, hadm]
    · simp [admittedEntry, pageEligible, hsrc, hadm]

theorem length_collectImages (head : String → Nat) (absolutize : String → String)
    (imgs : List PageImage) :
    (collectImages head absolutize imgs).length
      = imgs.countP (pageEligible head absolutize) := by
  induction imgs with
  | nil => simp [collectImages]
  | cons img rest ih =>
    simp only [collectImages, List.length_append, length_admittedEntry, ih,
      List.countP_cons]
    by_cases h : pageEligible head absolutize img = true
    · simp [h, Nat.add_comm]
    · simp [h]

/-- C1 (counterexample): an image whose raw src is "hero.SVG", 400 by 400
pixels and reachable by HEAD, satisfies the eligibility predicate exactly as
the claim words it (its absolutized src does not end with the lower-case
string ".svg"), yet the code excludes it, because the source lowercases the
raw src before the suffix test; the resulting inventory is empty, so the
inclusion-iff-eligibility of the claim fails. -/
theorem C1_counterexample :
    claimC1Eligible headAll200 absFromRoot svgUpper "hero.SVG" = true
  ∧ svgUpper.src = some "hero.SVG"
  ∧ imageInventory headAll200 absFromRoot [svgUpper] = [] :=
  ⟨by decide, by decide, by decide⟩

/-- C1 (amended): the inventory built by process_image_optimization has
min(10, number of eligible images) entries, where an image is eligible iff
its src attribute is present and non-empty, its LOWERCASED raw src does not
end with ".svg", a HEAD request to the absolutized src answers 200, and its
natural width and height both exceed 300; the inventory is ordered by
descending width*height, every inventory entry comes from an eligible image,
and when at most 10 images are eligible, every eligible image appears in the
inventory. -/
theorem C1_inventory_amended (head : String → Nat) (absolutize : String → String)
    (imgs : List PageImage) :
    (imageInventory head absolutize imgs).length
        = min 10 (collectImages head absolutize imgs).length
  ∧ (collectImages head absolutize imgs).length
        = imgs.countP (pageEligible head absolutize)
  ∧ (imageInventory head absolutize imgs).Pairwise (fun a b => b.size ≤ a.size)
  ∧ (∀ e ∈ imageInventory head absolutize imgs,
       ∃ img ∈ imgs, ∃ s, img.src = some s
         ∧ admitsImage head absolutize img s = true ∧ e = entryOf absolutize img s)
  ∧ ((collectImages head absolutize imgs).length ≤ 10 →
       ∀ img ∈ imgs, ∀ s, img.src = some s →
         admitsImage head absolutize img s = true →
         entryOf absolutize img s ∈ imageInventory head absolutize imgs) := by
  refine ⟨?_, length_collectImages head absolutize imgs, ?_, ?_, ?_⟩
  · rw [imageInventory, List.length_take, (sortDescBySize_perm _).length_eq]
  · exact List.Pairwise.sublist (List.take_sublist 10 _) (sortDescBySize_sorted _)
  · intro e he
    exact mem_collectImages.mp
      ((sortDescBySize_perm _).mem_iff.mp ((List.take_sublist 10 _).subset he))
  · intro hlen img hi s hs ha
    have hmem : entryOf absolutize img s ∈ collectImages head absolutize imgs :=
      mem_collectImages.mpr ⟨img, hi, s, hs, ha, rfl⟩
    have hlen2 : (sortDescBySize (collectImages head absolutize imgs)).length ≤ 10 := by
      rw [(sortDescBySize_perm _).length_eq]
      exact hlen
    rw [imageInventory, List.take_of_length_le hlen2]
    exact (sortDescBySize_perm _).mem_iff.mpr hmem

/-- C1 (witness): a concrete eligible 400 by 400 PNG image lands in the
inventory, through the completeness part of the amended theorem. -/
theorem C1_inventory_amended_witness :
    entryOf absFromRoot bigImg "a.png" ∈ imageInventory headAll200 absFromRoot [bigImg] :=
  (C1_inventory_amended headAll200 absFromRoot [bigImg]).2.2.2.2 (by decide)
    bigImg (by decide) "a.png" (by decide) (by decide)

theorem acceptGatedB_append : ∀ (l1 l2 : List Ev) (last : Option String),
    acceptGatedB last (l1 ++ l2)
      = (acceptGatedB last l1 && acceptGatedB (lastScoreFrom last l1) l2)
  | [], l2, last => by simp [acceptGatedB, lastScoreFrom]
  | e :: l1, l2, last => by
    simp only [List.cons_append, acceptGatedB, lastScoreFrom, List.append_eq,
      acceptGatedB_append l1 l2, Bool.and_assoc]

theorem acceptGatedB_textLoop : ∀ (iters : List TextIter) (folder : String)
    (pv : PageView) (last : Option String),
    acceptGatedB last (textLoop folder pv iters).1 = true
  | [], _, _, _ => rfl
  | it :: rest, folder, pv, last => by
    by_cases h : it.verdict.score = "pass"
    · simp [textLoop, h, acceptGatedB, gateStep]
    · simp only [textLoop, if_neg h, List.cons_append, List.nil_append,
        acceptGatedB, gateStep, Bool.true_and]
      exact acceptGatedB_textLoop rest folder _ _

theorem acceptGatedB_imageLoop : ∀ (iters : List ImgIter) (sitesDir : String)
    (token : Option String) (repoName : String) (ic : ImageChange)
    (ln : Option (Option String)) (last : Option String),
    acceptGatedB last (imageLoop sitesDir token repoName ic ln iters).1 = true
  | [], _, _, _, _, _, _ => rfl
  | o :: rest, sitesDir, token, repoName, ic, ln, last => by
    by_cases h1 : o.downloadStatus ≠ 200
    · simp [imageLoop, h1, acceptGatedB, gateStep]
    · by_cases h2 : o.genOk = false
      · simp [imageLoop, h1, h2, acceptGatedB, gateStep]
      · by_cases h3 : o.observeOk = false
        · simp [imageLoop, h1, h2, h3, acceptGatedB, gateStep]
        · by_cases h4 : o.verdict.score = "pass"
          · simp [imageLoop, h1, h2, h3, h4, acceptGatedB, gateStep]
          · simp only [imageLoop, if_neg h1, if_neg h2, if_neg h3, if_neg h4,
              List.cons_append, List.nil_append, List.append_assoc,
              acceptGatedB, gateStep, Bool.true_and]
            exact acceptGatedB_imageLoop rest sitesDir token repoName ic _ _

/-- C2: in both the text-optimization and the image-optimization run, a
change-log line is appended only while the most recent evaluator verdict has
score exactly "pass"; a trace never appends a log line after a fail verdict
or before any verdict, for every oracle. -/
theorem C2_accept_only_after_pass (host : String) (iters : List TextIter)
    (head : String → Nat) (absolutize : String → String) (imgs : List PageImage)
    (hasFinalOutput : Bool) (ic : ImageChange) (token : Option String)
    (repoName : String) (iiters : List ImgIter) :
    acceptGatedB none (process_text_optimization host iters).1 = true
  ∧ acceptGatedB none (process_image_optimization host head absolutize imgs
      hasFinalOutput ic token repoName iiters).1 = true := by
  constructor
  · simp only [process_text_optimization, acceptGatedB, gateStep, Bool.true_and,
      List.append_eq]
    rw [acceptGatedB_append]
    simp only [acceptGatedB_textLoop, Bool.true_and]
    split <;> rfl
  · simp only [process_image_optimization]
    split
    · rfl
    · split
      · rfl
      · split
        · simp only [acceptGatedB, gateStep, Bool.true_and, List.append_eq]
          rw [acceptGatedB_append]
          simp only [acceptGatedB_imageLoop, Bool.true_and]
          rfl
        · simp only [acceptGatedB, gateStep, Bool.true_and]
          exact acceptGatedB_imageLoop iiters _ _ _ _ _ _

theorem bump_lt {h : Nat} (hh : 10 ≤ h) : h < bump h := by
  unfold bump
  have h1 : 10 * h + 10 ≤ 11 * h := by omega
  have h2 : (10 * h + 10) / 10 = h + 1 := by
    have he : 10 * h + 10 = (h + 1) * 10 := by ring
    rw [he, Nat.mul_div_cancel _ (by norm_num)]
  have h3 : (10 * h + 10) / 10 ≤ 11 * h / 10 := Nat.div_le_div_right h1
  omega

theorem textLoop_heights : ∀ (iters : List TextIter) (folder : String) (pv : PageView),
    10 ≤ pv.height →
    List.Chain' (fun a b => a < b) (pv.height :: shotHeights (textLoop folder pv iters).1)
  | [], folder, pv, _ => by simp [textLoop, shotHeights]
  | it :: rest, folder, pv, hh => by
    have hb1 : pv.height < bump pv.height := bump_lt hh
    have hh2 : 10 ≤ bump pv.height := hh.trans hb1.le
    by_cases h : it.verdict.score = "pass"
    · simp only [textLoop, if_pos h, take_viewport_screenshot, shotHeights,
        List.filterMap_append, List.filterMap_cons, List.filterMap_nil]
      simp only [List.cons_append, List.nil_append, List.chain'_cons]
      exact ⟨hb1, bump_lt hh2, List.chain'_singleton _⟩
    · simp only [textLoop, if_neg h, take_viewport_screenshot, shotHeights,
        List.filterMap_append, List.filterMap_cons, List.filterMap_nil]
      simp only [List.cons_append, List.nil_append, List.chain'_cons]
      refine ⟨hb1, ?_⟩
      have := textLoop_heights rest folder
        ⟨pv.width, bump pv.height, pv.executed ++ [it.coderOut.script]⟩ hh2
      simpa [shotHeights] using this

/-- C9: take_viewport_screenshot is not a pure observation: it first resizes
the viewport to int(1.1 times the height), width unchanged, and only then
captures; in a text-optimization run starting at 1920 by 800 the pre-loop
resize yields height 880, the first capture happens at 968, and the heights
of successive viewport screenshots form a strictly increasing chain. -/
theorem C9_viewport_growth (host : String) (iters : List TextIter) :
    (∀ pv : PageView, take_viewport_screenshot pv
        = (⟨pv.width, 11 * pv.height / 10, pv.executed⟩,
           (pv.executed, 11 * pv.height / 10)))
  ∧ bump 800 = 880
  ∧ bump 880 = 968
  ∧ (shotHeights (process_text_optimization host iters).1).head? = some 968
  ∧ List.Chain' (fun a b => a < b)
      (shotHeights (process_text_optimization host iters).1) := by
  refine ⟨fun pv => rfl, rfl, rfl, ?_, ?_⟩
  · simp only [process_text_optimization, shotHeights, List.filterMap_cons]
    rfl
  · have hmain := textLoop_heights iters (get_site_folder host)
      (take_viewport_screenshot ⟨1920, bump 800, []⟩).1
      (by norm_num [take_viewport_screenshot, bump])
    simp only [process_text_optimization, shotHeights, List.filterMap_cons,
      List.filterMap_append, List.append_eq]
    have htail : (List.filterMap (fun e => match e with | Ev.viewportShot h => some h | _ => none)
        (if (textLoop (get_site_folder host)
            (take_viewport_screenshot ⟨1920, bump 800, []⟩).1 iters).2.2.isSome = true
         then [Ev.browserClose] else [])) = [] := by
      split <;> rfl
    rw [htail, List.append_nil]
    simpa [shotHeights, take_viewport_screenshot] using hmain

theorem fail_ne_pass : (("fail" : String) = "pass") = False := eq_false (by decide)

/-- C3: when the evaluator fails the first two text-optimization attempts
and passes the third, the coder agent is invoked exactly 3 times, exactly
one log line is appended, and after the pass verdict the accepted script is
executed once more before the final screenshot, so the final retained
screenshot shows the page state whose last applied script is the third one;
the full event trace is computed explicitly. -/
theorem C3_fail_fail_pass (host : String) (c1 c2 c3 : JSOutput) (f1 f2 f3 : String) :
    (process_text_optimization host (c3ScenarioIters c1 c2 c3 f1 f2 f3)).1.countP
        isProposerCall = 3
  ∧ (process_text_optimization host (c3ScenarioIters c1 c2 c3 f1 f2 f3)).1.countP
        isLogAppend = 1
  ∧ (process_text_optimization host (c3ScenarioIters c1 c2 c3 f1 f2 f3)).2
      = some ⟨c3.change_description, f3,
          ([c1.script, c2.script, c3.script, c3.script], 1415), c3.script⟩
  ∧ (process_text_optimization host (c3ScenarioIters c1 c2 c3 f1 f2 f3)).1
      = [Ev.viewportShot 968,
         Ev.proposerCall, Ev.fileWrite (get_site_folder host ++ "/script.js"),
         Ev.scriptExec c1.script, Ev.viewportShot 1064, Ev.verdictEv ⟨f1, "fail"⟩,
         Ev.feedbackAdd f1,
         Ev.proposerCall, Ev.fileWrite (get_site_folder host ++ "/script.js"),
         Ev.scriptExec c2.script, Ev.viewportShot 1170, Ev.verdictEv ⟨f2, "fail"⟩,
         Ev.feedbackAdd f2,
         Ev.proposerCall, Ev.fileWrite (get_site_folder host ++ "/script.js"),
         Ev.scriptExec c3.script, Ev.viewportShot 1287, Ev.verdictEv ⟨f3, "pass"⟩,
         Ev.scriptExec c3.script, Ev.viewportShot 1415,
         Ev.logAppend (get_site_folder host ++ "/log.txt")
           ("- " ++ c3.change_description ++ "\n"),
         Ev.browserClose] := by
  have htr : (process_text_optimization host (c3ScenarioIters c1 c2 c3 f1 f2 f3)).1
      = [Ev.viewportShot 968,
         Ev.proposerCall, Ev.fileWrite (get_site_folder host ++ "/script.js"),
         Ev.scriptExec c1.script, Ev.viewportShot 1064, Ev.verdictEv ⟨f1, "fail"⟩,
         Ev.feedbackAdd f1,
         Ev.proposerCall, Ev.fileWrite (get_site_folder host ++ "/script.js"),
         Ev.scriptExec c2.script, Ev.viewportShot 1170, Ev.verdictEv ⟨f2, "fail"⟩,
         Ev.feedbackAdd f2,
         Ev.proposerCall, Ev.fileWrite (get_site_folder host ++ "/script.js"),
         Ev.scriptExec c3.script, Ev.viewportShot 1287, Ev.verdictEv ⟨f3, "pass"⟩,
         Ev.scriptExec c3.script, Ev.viewportShot 1415,
         Ev.logAppend (get_site_folder host ++ "/log.txt")
           ("- " ++ c3.change_description ++ "\n"),
         Ev.browserClose] := by
    simp only [c3ScenarioIters, process_text_optimization, textLoop,
      take_viewport_screenshot, bump, fail_ne_pass, if_false, eq_self_iff_true,
      if_true, Option.isSome_some]
    norm_num
  have hres : (process_text_optimization host (c3ScenarioIters c1 c2 c3 f1 f2 f3)).2
      = some ⟨c3.change_description, f3,
          ([c1.script, c2.script, c3.script, c3.script], 1415), c3.script⟩ := by
    simp only [c3ScenarioIters, process_text_optimization, textLoop,
      take_viewport_screenshot, bump, fail_ne_pass, if_false, eq_self_iff_true,
      if_true]
    norm_num
  refine ⟨?_, ?_, hres, htr⟩
  · rw [htr]; rfl
  · rw [htr]; rfl

theorem imageLoop_countP_specialist : ∀ (iters : List ImgIter) (sitesDir : String)
    (token : Option String) (repoName : String) (ic : ImageChange)
    (ln : Option (Option String)),
    (imageLoop sitesDir token repoName ic ln iters).1.countP isSpecialistCall = 0
  | [], _, _, _, _, _ => rfl
  | o :: rest, sitesDir, token, repoName, ic, ln => by
    by_cases h1 : o.downloadStatus ≠ 200
    · simp [imageLoop, h1, isSpecialistCall]
    · by_cases h2 : o.genOk = false
      · simp [imageLoop, h1, h2, isSpecialistCall]
      · by_cases h3 : o.observeOk = false
        · simp [imageLoop, h1, h2, h3, isSpecialistCall]
        · by_cases h4 : o.verdict.score = "pass"
          · simp [imageLoop, h1, h2, h3, h4, isSpecialistCall]
          · simp only [imageLoop, if_neg h1, if_neg h2, if_neg h3, if_neg h4,
              List.cons_append, List.nil_append, List.countP_cons, List.countP_append]
            simp [isSpecialistCall,
              imageLoop_countP_specialist rest sitesDir token repoName ic _]

theorem textLoop_countP_proposer : ∀ (iters : List TextIter) (folder : String)
    (pv : PageView),
    (textLoop folder pv iters).1.countP isProposerCall = itersStarted iters
  | [], _, _ => rfl
  | it :: rest, folder, pv => by
    by_cases h : it.verdict.score = "pass"
    · simp [textLoop, h, itersStarted, isProposerCall, List.countP_cons]
    · simp only [textLoop, if_neg h, List.cons_append, List.nil_append,
        List.countP_cons, itersStarted]
      simp [isProposerCall, textLoop_countP_proposer rest folder _, if_neg h,
        Nat.add_comm]

/-- C4: in an image-optimization run that found images, the image specialist
is invoked exactly once, before the retry loop (the trace starts with the
full-page screenshot and the single specialist call, and no later event is a
specialist call); a fail verdict repeats only the apply, observe and
evaluate steps with the feedback appended, and the text-optimization loop
re-invokes its proposer on every iteration it starts. -/
theorem C4_propose_once (host : String) (head : String → Nat)
    (absolutize : String → String) (imgs : List PageImage) (ic : ImageChange)
    (token : Option String) (repoName : String) (iters : List ImgIter)
    (hinv : imageInventory head absolutize imgs ≠ []) :
    (process_image_optimization host head absolutize imgs true ic token repoName
        iters).1.countP isSpecialistCall = 1
  ∧ (∃ tl, (process_image_optimization host head absolutize imgs true ic token
        repoName iters).1 = Ev.fullShot :: Ev.specialistCall :: tl
      ∧ tl.countP isSpecialistCall = 0)
  ∧ (∀ (sitesDir : String) (ln : Option (Option String)) (o : ImgIter)
       (rest : List ImgIter),
       o.downloadStatus = 200 → o.genOk = true → o.observeOk = true →
       o.verdict.score ≠ "pass" →
       (imageLoop sitesDir token repoName ic ln (o :: rest)).1 =
         [Ev.download 200, Ev.genCall, Ev.fileWrite (sitesDir ++ "/" ++ o.fname),
          Ev.uploadCall,
          Ev.pageMutate (pyStr (upload_to_github token o.putOutcome repoName "main"
            o.fname)),
          Ev.fullShot, Ev.fileWrite (sitesDir ++ "/after_replacement.png"),
          Ev.verdictEv o.verdict, Ev.feedbackAdd o.verdict.feedback]
         ++ (imageLoop sitesDir token repoName ic
              (some (upload_to_github token o.putOutcome repoName "main" o.fname))
              rest).1)
  ∧ (∀ titers : List TextIter,
       (process_text_optimization host titers).1.countP isProposerCall
         = itersStarted titers) := by
  refine ⟨?_, ?_, ?_, ?_⟩
  · simp only [process_image_optimization, if_neg hinv]
    norm_num
    split
    · simp [List.countP_cons, List.countP_append, isSpecialistCall,
        imageLoop_countP_specialist]
    · simp [List.countP_cons, isSpecialistCall, imageLoop_countP_specialist]
  · simp only [process_image_optimization, if_neg hinv]
    norm_num
    split
    · refine ⟨_, rfl, ?_⟩
      intro a ha
      rcases List.mem_append.mp ha with ha | ha
      · have h0 := List.countP_eq_zero.mp
          (imageLoop_countP_specialist iters (imageSitesDir host) token repoName ic
            none) a ha
        simpa using h0
      · rw [List.mem_singleton.mp ha]
        rfl
    · refine ⟨_, rfl, ?_⟩
      intro a ha
      have h0 := List.countP_eq_zero.mp
        (imageLoop_countP_specialist iters (imageSitesDir host) token repoName ic
          none) a ha
      simpa using h0
  · intro sitesDir ln o rest h1 h2 h3 h4
    simp [imageLoop, h1, h2, h3, h4]
  · intro titers
    simp only [process_text_optimization, List.countP_cons, List.countP_append,
      List.append_eq]
    have hsplit : (List.countP isProposerCall
        (if (textLoop (get_site_folder host)
            (take_viewport_screenshot ⟨1920, bump 800, []⟩).1 titers).2.2.isSome = true
         then [Ev.browserClose] else [])) = 0 := by
      split <;> rfl
    simp [hsplit, isProposerCall, textLoop_countP_proposer]

/-- C4 (witness): in a concrete image run with one eligible image the trace
contains exactly one specialist call. -/
theorem C4_witness :
    (process_image_optimization "a.com" headAll200 absFromRoot [bigImg] true icEx
      none "o/r" []).1.countP isSpecialistCall = 1 :=
  (C4_propose_once "a.com" headAll200 absFromRoot [bigImg] icEx none "o/r" []
    (by decide)).1

/-- C8: when the download of the candidate image in the first pass of the
image retry loop answers a status other than 200, the run stops right there:
the whole trace is the full-page screenshot, the specialist call, the failed
download and the browser close; no file is written, the image generation
service is never called, no upload is attempted, and the run returns its
summary with no new image URL. -/
theorem C8_download_failure (host : String) (head : String → Nat)
    (absolutize : String → String) (imgs : List PageImage) (ic : ImageChange)
    (token : Option String) (repoName : String) (o : ImgIter) (rest : List ImgIter)
    (hinv : imageInventory head absolutize imgs ≠ [])
    (hdl : o.downloadStatus ≠ 200) :
    (process_image_optimization host head absolutize imgs true ic token repoName
        (o :: rest)).1
      = [Ev.fullShot, Ev.specialistCall, Ev.download o.downloadStatus,
         Ev.browserClose]
  ∧ (process_image_optimization host head absolutize imgs true ic token repoName
        (o :: rest)).1.countP isFileWrite = 0
  ∧ (process_image_optimization host head absolutize imgs true ic token repoName
        (o :: rest)).1.countP isGenCall = 0
  ∧ (process_image_optimization host head absolutize imgs true ic token repoName
        (o :: rest)).1.countP isUploadCall = 0
  ∧ (process_image_optimization host head absolutize imgs true ic token repoName
        (o :: rest)).2
      = RunOutcome.returned (some ⟨ic.change_description, ic.image_url, none⟩) := by
  have htr : (process_image_optimization host head absolutize imgs true ic token
      repoName (o :: rest)).1
      = [Ev.fullShot, Ev.specialistCall, Ev.download o.downloadStatus,
         Ev.browserClose] := by
    simp [process_image_optimization, if_neg hinv, imageLoop, hdl]
  have hres : (process_image_optimization host head absolutize imgs true ic token
      repoName (o :: rest)).2
      = RunOutcome.returned (some ⟨ic.change_description, ic.image_url, none⟩) := by
    simp [process_image_optimization, if_neg hinv, imageLoop, hdl, Option.join]
  refine ⟨htr, ?_, ?_, ?_, hres⟩ <;> rw [htr] <;> rfl

/-- C8 (witness): a concrete run whose first download answers 404 produces
exactly the four-event abort trace. -/
theorem C8_witness :
    (process_image_optimization "a.com" headAll200 absFromRoot [bigImg] true icEx
      none "o/r" [⟨404, true, none, true, ⟨"", "fail"⟩, "x.png"⟩]).1
    = [Ev.fullShot, Ev.specialistCall, Ev.download 404, Ev.browserClose] :=
  (C8_download_failure "a.com" headAll200 absFromRoot [bigImg] icEx none "o/r"
    ⟨404, true, none, true, ⟨"", "fail"⟩, "x.png"⟩ [] (by decide) (by decide)).1

/-- C10: process_image_optimization returns None exactly when the filtered
inventory is empty or the specialist result lacks final_output; in these two
early exits the browser is closed and the trace contains no download, no
file write and no log append. -/
theorem C10_early_exits (host : String) (head : String → Nat)
    (absolutize : String → String) (imgs : List PageImage) (hasFO : Bool)
    (ic : ImageChange) (token : Option String) (repoName : String)
    (iters : List ImgIter) :
    ((process_image_optimization host head absolutize imgs hasFO ic token repoName
        iters).2 = RunOutcome.returned none
      ↔ (imageInventory head absolutize imgs = [] ∨ hasFO = false))
  ∧ (imageInventory head absolutize imgs = [] ∨ hasFO = false →
       Ev.browserClose ∈ (process_image_optimization host head absolutize imgs hasFO
           ic token repoName iters).1
       ∧ (process_image_optimization host head absolutize imgs hasFO ic token
           repoName iters).1.countP isDownload = 0
       ∧ (process_image_optimization host head absolutize imgs hasFO ic token
           repoName iters).1.countP isFileWrite = 0
       ∧ (process_image_optimization host head absolutize imgs hasFO ic token
           repoName iters).1.countP isLogAppend = 0) := by
  by_cases hinv : imageInventory head absolutize imgs = []
  · constructor
    · simp [process_image_optimization, hinv]
    · intro _
      simp [process_image_optimization, hinv, List.countP_cons, isDownload,
        isFileWrite, isLogAppend]
  · by_cases hfo : hasFO = false
    · constructor
      · simp [process_image_optimization, hinv, hfo]
      · intro _
        simp [process_image_optimization, hinv, hfo, List.countP_cons, isDownload,
          isFileWrite, isLogAppend]
    · constructor
      · simp only [process_image_optimization, if_neg hinv, if_neg hfo]
        constructor
        · intro h
          split at h
          · cases h
          · cases h
        · intro h
          rcases h with h | h
          · exact absurd h hinv
          · exact absurd h hfo
      · intro h
        rcases h with h | h
        · exact absurd h hinv
        · exact absurd h hfo

/-- C10 (witness): a concrete run over a page with no images closes the
browser and performs no loop work. -/
theorem C10_witness :
    Ev.browserClose ∈ (process_image_optimization "a.com" headAll200 absFromRoot []
        true icEx none "o/r" []).1
  ∧ (process_image_optimization "a.com" headAll200 absFromRoot [] true icEx none
      "o/r" []).1.countP isDownload = 0
  ∧ (process_image_optimization "a.com" headAll200 absFromRoot [] true icEx none
      "o/r" []).1.countP isFileWrite = 0
  ∧ (process_image_optimization "a.com" headAll200 absFromRoot [] true icEx none
      "o/r" []).1.countP isLogAppend = 0 :=
  (C10_early_exits "a.com" headAll200 absFromRoot [] true icEx none "o/r" []).2
    (Or.inl (by decide))

/-- C5 (counterexample): with no GITHUB_TOKEN the upload returns None, yet
the page-mutation step still executes: the trace of a concrete run contains
a pageMutate event whose new src is the literal string "None".  The claim
that the mutation step is not executed after an upload failure is false. -/
theorem C5_counterexample :
    upload_to_github none (some 500) "o/r" "main" "x.png" = none
  ∧ Ev.pageMutate "None" ∈ (process_image_optimization "a.com" headAll200 absFromRoot
      [bigImg] true icEx none "o/r"
      [⟨200, true, some 500, false, ⟨"", "fail"⟩, "x.png"⟩]).1 :=
  ⟨rfl, by decide⟩

/-- C5 (amended): every upload failure (missing token, non-200/201 status,
raised request) makes upload_to_github return None, so no public URL is
obtained; the run however does not abort at that step: whenever the download
succeeded and the generation chain ran, the page-mutation script is executed
with the str() rendering of the upload result, which is the string "None"
when the upload failed. -/
theorem C5_upload_failure_amended (token : Option String) (t : String)
    (putOutcome : Option Nat) (repoName branch basename : String)
    (sitesDir : String) (ic : ImageChange) (ln : Option (Option String))
    (o : ImgIter) (rest : List ImgIter) :
    upload_to_github none putOutcome repoName branch basename = none
  ∧ (∀ status : Nat, status ≠ 200 → status ≠ 201 →
       upload_to_github (some t) (some status) repoName branch basename = none)
  ∧ upload_to_github (some t) none repoName branch basename = none
  ∧ (o.downloadStatus = 200 → o.genOk = true →
       Ev.pageMutate (pyStr (upload_to_github token o.putOutcome repoName "main"
           o.fname))
         ∈ (imageLoop sitesDir token repoName ic ln (o :: rest)).1)
  ∧ (o.downloadStatus = 200 → o.genOk = true →
       upload_to_github token o.putOutcome repoName "main" o.fname = none →
       Ev.pageMutate "None" ∈ (imageLoop sitesDir token repoName ic ln
         (o :: rest)).1) := by
  have hmut : o.downloadStatus = 200 → o.genOk = true →
      Ev.pageMutate (pyStr (upload_to_github token o.putOutcome repoName "main"
        o.fname)) ∈ (imageLoop sitesDir token repoName ic ln (o :: rest)).1 := by
    intro h1 h2
    by_cases h3 : o.observeOk = false
    · simp [imageLoop, h1, h2, h3]
    · by_cases h4 : o.verdict.score = "pass"
      · simp [imageLoop, h1, h2, h3, h4]
      · simp [imageLoop, h1, h2, h3, h4]
  refine ⟨rfl, ?_, rfl, hmut, ?_⟩
  · intro status hs1 hs2
    simp [upload_to_github, hs1, hs2]
  · intro h1 h2 hup
    have hm := hmut h1 h2
    rw [hup] at hm
    exact hm

/-- C5 (witness): in a concrete iteration with a failed upload the mutation
event with new src "None" is in the loop trace. -/
theorem C5_amended_witness :
    Ev.pageMutate "None" ∈ (imageLoop "sites/a.com/img" none "o/r" icEx none
      [⟨200, true, some 500, false, ⟨"", "fail"⟩, "x.png"⟩]).1 :=
  (C5_upload_failure_amended none "t" (some 500) "o/r" "main" "x.png"
    "sites/a.com/img" icEx none ⟨200, true, some 500, false, ⟨"", "fail"⟩, "x.png"⟩
    []).2.2.2.2 rfl rfl rfl

theorem startsWithWww_length : ∀ {l : List Char}, startsWithWww l = true → 4 ≤ l.length
  | _ :: _ :: _ :: _ :: _, _ => by simp [List.length_cons]
  | [], h => nomatch h
  | [_], h => nomatch h
  | [_, _], h => nomatch h
  | [_, _, _], h => nomatch h

theorem dropFirstWwwAux_id : ∀ l : List Char, containsWwwAux l = false →
    dropFirstWwwAux l = l
  | [], _ => rfl
  | c :: rest, h => by
    rw [containsWwwAux, Bool.or_eq_false_iff] at h
    rw [dropFirstWwwAux, if_neg (by simp [h.1]), dropFirstWwwAux_id rest h.2]

theorem dropFirstWwwAux_length : ∀ l : List Char, containsWwwAux l = true →
    (dropFirstWwwAux l).length + 4 = l.length
  | [], h => nomatch h
  | c :: rest, h => by
    by_cases h1 : startsWithWww (c :: rest) = true
    · have h4 := startsWithWww_length h1
      rw [dropFirstWwwAux, if_pos h1, List.length_drop]
      simp only [List.length_cons] at h4 ⊢
      omega
    · rw [containsWwwAux, Bool.or_eq_true_iff] at h
      have h2 : containsWwwAux rest = true := by
        rcases h with h | h
        · exact absurd h h1
        · exact h
      rw [dropFirstWwwAux, if_neg h1]
      simp only [List.length_cons]
      have h5 := dropFirstWwwAux_length rest h2
      omega

/-- C6 (counterexample): the URL http://a.com/www.x.png has a host with no
leading www. prefix, yet normalization changes it, removing the www. that
sits in the path: the claim that normalization is the identity on every URL
whose host has no leading www. is false. -/
theorem C6_counterexample :
    hostOf "http://a.com/www.x.png" = "a.com"
  ∧ startsWithWww (hostOf "http://a.com/www.x.png").toList = false
  ∧ normalizeUrl "http://a.com/www.x.png" = "http://a.com/x.png"
  ∧ normalizeUrl "http://a.com/www.x.png" ≠ "http://a.com/www.x.png" :=
  ⟨by decide, by decide, by decide, by decide⟩

/-- C6 (amended): the normalization removes the FIRST occurrence of the
substring www. anywhere in the URL (JavaScript String.replace with a string
pattern), case-sensitively; the two example URLs of the claim normalize to
the same string, and normalization leaves a URL unchanged exactly when the
URL does not contain www. as a substring at all. -/
theorem C6_normalize_amended (u : String) :
    normalizeUrl "http://www.a.com/x.png" = normalizeUrl "http://a.com/x.png"
  ∧ (containsWww u = false ↔ normalizeUrl u = u) := by
  refine ⟨by decide, ?_, ?_⟩
  · intro h
    have hid := dropFirstWwwAux_id u.toList h
    rw [normalizeUrl, hid]
    rfl
  · intro h
    cases hcc : containsWwwAux u.toList
    · exact hcc
    · exfalso
      have hlen := dropFirstWwwAux_length u.toList hcc
      have hdata : (normalizeUrl u).data = u.data := congrArg String.data h
      have heq : dropFirstWwwAux u.toList = u.toList := hdata
      rw [heq] at hlen
      omega

/-- C6 (witness): a URL with no www. substring is left unchanged. -/
theorem C6_amended_witness :
    normalizeUrl "http://a.example/x.png" = "http://a.example/x.png" :=
  (C6_normalize_amended "http://a.example/x.png").2.mp (by decide)

theorem logLinesAt_append (p : String) (l1 l2 : List Ev) :
    logLinesAt p (l1 ++ l2) = logLinesAt p l1 ++ logLinesAt p l2 := by
  simp [logLinesAt, List.filterMap_append]

theorem appendLogAt_eq : ∀ (tr : List Ev) (p c : String),
    appendLogAt p c tr = c ++ concatLines (logLinesAt p tr)
  | [], p, c => by simp [appendLogAt, logLinesAt, concatLines, String.append_empty]
  | e :: rest, p, c => by
    cases e with
    | logAppend q line =>
      by_cases hq : q = p
      · simp only [appendLogAt, logLinesAt, List.filterMap_cons, if_pos hq]
        rw [appendLogAt_eq rest p (c ++ line)]
        simp [logLinesAt, concatLines, String.append_assoc]
      · simp only [appendLogAt, logLinesAt, List.filterMap_cons, if_neg hq]
        exact appendLogAt_eq rest p c
    | proposerCall => exact appendLogAt_eq rest p c
    | specialistCall => exact appendLogAt_eq rest p c
    | fileWrite path => exact appendLogAt_eq rest p c
    | scriptExec s => exact appendLogAt_eq rest p c
    | viewportShot h => exact appendLogAt_eq rest p c
    | fullShot => exact appendLogAt_eq rest p c
    | verdictEv e => exact appendLogAt_eq rest p c
    | feedbackAdd t => exact appendLogAt_eq rest p c
    | download s => exact appendLogAt_eq rest p c
    | genCall => exact appendLogAt_eq rest p c
    | uploadCall => exact appendLogAt_eq rest p c
    | pageMutate s => exact appendLogAt_eq rest p c
    | browserClose => exact appendLogAt_eq rest p c

theorem textLoop_logLines : ∀ (iters : List TextIter) (folder : String) (pv : PageView),
    logLinesAt (folder ++ "/log.txt") (textLoop folder pv iters).1
      = (match (textLoop folder pv iters).2.2 with
         | some r => ["- " ++ r.coder_response ++ "\n"]
         | none => [])
  | [], _, _ => rfl
  | it :: rest, folder, pv => by
    by_cases h : it.verdict.score = "pass"
    · simp [textLoop, h, logLinesAt, List.filterMap_cons]
    · simp only [textLoop, if_neg h, List.cons_append, List.nil_append,
        logLinesAt, List.filterMap_cons]
      exact textLoop_logLines rest folder _

theorem textLoop_logLines_other : ∀ (iters : List TextIter) (folder : String)
    (pv : PageView) (p : String), p ≠ folder ++ "/log.txt" →
    logLinesAt p (textLoop folder pv iters).1 = []
  | [], _, _, _, _ => rfl
  | it :: rest, folder, pv, p, hp => by
    by_cases h : it.verdict.score = "pass"
    · have hne : (folder ++ "/log.txt" = p) = False :=
        eq_false (fun he => hp he.symm)
      simp [textLoop, h, logLinesAt, List.filterMap_cons, hne]
    · simp only [textLoop, if_neg h, List.cons_append, List.nil_append,
        logLinesAt, List.filterMap_cons]
      exact textLoop_logLines_other rest folder _ p hp

theorem text_run_logLines (host : String) (iters : List TextIter) :
    logLinesAt (textLogPath host) (process_text_optimization host iters).1
      = (match (process_text_optimization host iters).2 with
         | some r => ["- " ++ r.coder_response ++ "\n"]
         | none => []) := by
  have h1 := textLoop_logLines iters (get_site_folder host)
    (take_viewport_screenshot ⟨1920, bump 800, []⟩).1
  simp only [process_text_optimization, textLogPath, logLinesAt,
    List.filterMap_cons, List.filterMap_append, List.append_eq]
  have h2 : (List.filterMap (fun e => match e with
      | Ev.logAppend q line => if q = get_site_folder host ++ "/log.txt" then some line else none
      | _ => none)
      (if (textLoop (get_site_folder host)
          (take_viewport_screenshot ⟨1920, bump 800, []⟩).1 iters).2.2.isSome = true
       then [Ev.browserClose] else [])) = [] := by
    split <;> rfl
  rw [h2, List.append_nil]
  exact h1

theorem text_run_logLines_other (host : String) (iters : List TextIter) (p : String)
    (hp : p ≠ textLogPath host) :
    logLinesAt p (process_text_optimization host iters).1 = [] := by
  have h1 := textLoop_logLines_other iters (get_site_folder host)
    (take_viewport_screenshot ⟨1920, bump 800, []⟩).1 p hp
  simp only [process_text_optimization, logLinesAt, List.filterMap_cons,
    List.filterMap_append, List.append_eq]
  have h2 : (List.filterMap (fun e => match e with
      | Ev.logAppend q line => if q = p then some line else none
      | _ => none)
      (if (textLoop (get_site_folder host)
          (take_viewport_screenshot ⟨1920, bump 800, []⟩).1 iters).2.2.isSome = true
       then [Ev.browserClose] else [])) = [] := by
    split <;> rfl
  rw [h2, List.append_nil]
  exact h1

theorem imageLoop_logLines_own : ∀ (iters : List ImgIter) (sitesDir : String)
    (token : Option String) (repoName : String) (ic : ImageChange)
    (ln : Option (Option String)),
    logLinesAt (sitesDir ++ "/log.txt")
        (imageLoop sitesDir token repoName ic ln iters).1 = []
  ∨ logLinesAt (sitesDir ++ "/log.txt")
        (imageLoop sitesDir token repoName ic ln iters).1
      = ["- " ++ ic.change_description ++ "\n"]
  | [], _, _, _, _, _ => Or.inl rfl
  | o :: rest, sitesDir, token, repoName, ic, ln => by
    by_cases h1 : o.downloadStatus ≠ 200
    · exact Or.inl (by simp [imageLoop, h1, logLinesAt, List.filterMap_cons])
    · by_cases h2 : o.genOk = false
      · exact Or.inl (by simp [imageLoop, h1, h2, logLinesAt, List.filterMap_cons])
      · by_cases h3 : o.observeOk = false
        · exact Or.inl (by simp [imageLoop, h1, h2, h3, logLinesAt,
            List.filterMap_cons])
        · by_cases h4 : o.verdict.score = "pass"
          · refine Or.inr ?_
            simp [imageLoop, h1, h2, h3, h4, logLinesAt, List.filterMap_cons,
              List.filterMap_append]
          · have hrec := imageLoop_logLines_own rest sitesDir token repoName ic
              (some (upload_to_github token o.putOutcome repoName "main" o.fname))
            rcases hrec with hrec | hrec
            · refine Or.inl ?_
              simp only [imageLoop, if_neg h1, if_neg h2, if_neg h3, if_neg h4,
                List.cons_append, List.nil_append, List.append_assoc, logLinesAt,
                List.filterMap_cons, List.filterMap_append] at hrec ⊢
              simpa using hrec
            · refine Or.inr ?_
              simp only [imageLoop, if_neg h1, if_neg h2, if_neg h3, if_neg h4,
                List.cons_append, List.nil_append, List.append_assoc, logLinesAt,
                List.filterMap_cons, List.filterMap_append] at hrec ⊢
              simpa using hrec

theorem imageLoop_logLines_other : ∀ (iters : List ImgIter) (sitesDir : String)
    (token : Option String) (repoName : String) (ic : ImageChange)
    (ln : Option (Option String)) (p : String), p ≠ sitesDir ++ "/log.txt" →
    logLinesAt p (imageLoop sitesDir token repoName ic ln iters).1 = []
  | [], _, _, _, _, _, _, _ => rfl
  | o :: rest, sitesDir, token, repoName, ic, ln, p, hp => by
    have hne : (sitesDir ++ "/log.txt" = p) = False := eq_false (fun he => hp he.symm)
    by_cases h1 : o.downloadStatus ≠ 200
    · simp [imageLoop, h1, logLinesAt, List.filterMap_cons]
    · by_cases h2 : o.genOk = false
      · simp [imageLoop, h1, h2, logLinesAt, List.filterMap_cons]
      · by_cases h3 : o.observeOk = false
        · simp [imageLoop, h1, h2, h3, logLinesAt, List.filterMap_cons]
        · by_cases h4 : o.verdict.score = "pass"
          · simp [imageLoop, h1, h2, h3, h4, logLinesAt, List.filterMap_cons,
              List.filterMap_append, hne]
          · have hrec := imageLoop_logLines_other rest sitesDir token repoName ic
              (some (upload_to_github token o.putOutcome repoName "main" o.fname))
              p hp
            simp only [imageLoop, if_neg h1, if_neg h2, if_neg h3, if_neg h4,
              List.cons_append, List.nil_append, List.append_assoc, logLinesAt,
              List.filterMap_cons, List.filterMap_append] at hrec ⊢
            simpa using hrec

theorem image_run_logLines_other (host : String) (head : String → Nat)
    (absolutize : String → String) (imgs : List PageImage) (hasFO : Bool)
    (ic : ImageChange) (token : Option String) (repoName : String)
    (iiters : List ImgIter) (p : String)
    (hp : p ≠ imageSitesDir host ++ "/log.txt") :
    logLinesAt p (process_image_optimization host head absolutize imgs hasFO ic
      token repoName iiters).1 = [] := by
  by_cases hinv : imageInventory head absolutize imgs = []
  · simp [process_image_optimization, hinv, logLinesAt, List.filterMap_cons]
  · by_cases hfo : hasFO = false
    · simp [process_image_optimization, hinv, hfo, logLinesAt, List.filterMap_cons]
    · have hrec := imageLoop_logLines_other iiters (imageSitesDir host) token
        repoName ic none p hp
      simp only [process_image_optimization, if_neg hinv, if_neg hfo]
      split
      · simp only [logLinesAt, List.filterMap_cons, List.filterMap_append,
          List.append_eq] at hrec ⊢
        simpa using hrec
      · simp only [logLinesAt, List.filterMap_cons] at hrec ⊢
        exact hrec

theorem image_run_logLines_own (host : String) (head : String → Nat)
    (absolutize : String → String) (imgs : List PageImage) (hasFO : Bool)
    (ic : ImageChange) (token : Option String) (repoName : String)
    (iiters : List ImgIter) :
    logLinesAt (imageSitesDir host ++ "/log.txt")
        (process_image_optimization host head absolutize imgs hasFO ic token
          repoName iiters).1 = []
  ∨ logLinesAt (imageSitesDir host ++ "/log.txt")
        (process_image_optimization host head absolutize imgs hasFO ic token
          repoName iiters).1 = ["- " ++ ic.change_description ++ "\n"] := by
  by_cases hinv : imageInventory head absolutize imgs = []
  · exact Or.inl (by simp [process_image_optimization, hinv, logLinesAt,
      List.filterMap_cons])
  · by_cases hfo : hasFO = false
    · exact Or.inl (by simp [process_image_optimization, hinv, hfo, logLinesAt,
        List.filterMap_cons])
    · have hrec := imageLoop_logLines_own iiters (imageSitesDir host) token
        repoName ic none
      simp only [process_image_optimization, if_neg hinv, if_neg hfo]
      rcases hrec with hrec | hrec
      · refine Or.inl ?_
        split
        · simp only [logLinesAt, List.filterMap_cons, List.filterMap_append,
            List.append_eq] at hrec ⊢
          simpa using hrec
        · simpa [logLinesAt, List.filterMap_cons] using hrec
      · refine Or.inr ?_
        split
        · simp only [logLinesAt, List.filterMap_cons, List.filterMap_append,
            List.append_eq] at hrec ⊢
          simpa using hrec
        · simpa [logLinesAt, List.filterMap_cons] using hrec

theorem runsLog_eq (host : String) : ∀ (runs : List (List TextIter)) (c0 : String),
    runsLog host c0 runs = c0 ++ concatLines (runs.map (fun r =>
      match (process_text_optimization host r).2 with
      | some res => "- " ++ res.coder_response ++ "\n"
      | none => ""))
  | [], c0 => by simp [runsLog, concatLines, String.append_empty]
  | r :: rest, c0 => by
    rw [runsLog, runsLog_eq host rest, appendLogAt_eq, text_run_logLines]
    cases hres : (process_text_optimization host r).2 with
    | none =>
      simp [hres, concatLines, String.append_empty, String.append_assoc]
    | some res =>
      simp [hres, concatLines, String.append_empty, String.append_assoc]

/-- C7 (amended): the change logs are append-only and monotone, but the two
runs write to two different files.  Text-optimization runs append their
single accepted line to sites/<host-without-www>/log.txt and after a
sequence of runs the content of that file is the initial content followed by
the accepted description lines in run order; an accepted image-optimization
run appends its single line to sites/<host-without-www>/img/log.txt, and
neither run ever writes a log line to any other path. -/
theorem C7_log_amended (host : String) (c0 : String) (runs : List (List TextIter))
    (head : String → Nat) (absolutize : String → String) (imgs : List PageImage)
    (hasFO : Bool) (ic : ImageChange) (token : Option String) (repoName : String)
    (iiters : List ImgIter) :
    runsLog host c0 runs = c0 ++ concatLines (runs.map (fun r =>
        match (process_text_optimization host r).2 with
        | some res => "- " ++ res.coder_response ++ "\n"
        | none => ""))
  ∧ (∀ r : List TextIter,
       logLinesAt (textLogPath host) (process_text_optimization host r).1
         = (match (process_text_optimization host r).2 with
            | some res => ["- " ++ res.coder_response ++ "\n"]
            | none => []))
  ∧ (∀ p, p ≠ textLogPath host → ∀ r : List TextIter,
       logLinesAt p (process_text_optimization host r).1 = [])
  ∧ (logLinesAt (imageSitesDir host ++ "/log.txt")
        (process_image_optimization host head absolutize imgs hasFO ic token
          repoName iiters).1 = []
     ∨ logLinesAt (imageSitesDir host ++ "/log.txt")
        (process_image_optimization host head absolutize imgs hasFO ic token
          repoName iiters).1 = ["- " ++ ic.change_description ++ "\n"])
  ∧ (∀ p, p ≠ imageSitesDir host ++ "/log.txt" →
       logLinesAt p (process_image_optimization host head absolutize imgs hasFO ic
         token repoName iiters).1 = []) :=
  ⟨runsLog_eq host runs c0,
   fun r => text_run_logLines host r,
   fun p hp r => text_run_logLines_other host r p hp,
   image_run_logLines_own host head absolutize imgs hasFO ic token repoName iiters,
   fun p hp => image_run_logLines_other host head absolutize imgs hasFO ic token
     repoName iiters p hp⟩

/-- C7 (witness): two concrete accepted text runs leave exactly the two
accepted lines, concatenated in run order, in the text change log. -/
theorem C7_amended_witness :
    runsLog "a.com" "" [[⟨⟨"s1", "d1"⟩, ⟨"f", "pass"⟩⟩],
      [⟨⟨"s2", "d2"⟩, ⟨"g", "pass"⟩⟩]] = "- d1\n- d2\n" := by
  rw [(C7_log_amended "a.com" "" [[⟨⟨"s1", "d1"⟩, ⟨"f", "pass"⟩⟩],
      [⟨⟨"s2", "d2"⟩, ⟨"g", "pass"⟩⟩]] headAll200 absFromRoot [] true icEx none
      "o/r" []).1]
  decide

/-- C7 (counterexample): a concrete accepted image-optimization run appends
exactly one log line, but to sites/a.com/img/log.txt; the path named by the
claim, sites/a.com/log.txt, receives nothing. -/
theorem C7_counterexample :
    (process_image_optimization "a.com" headAll200 absFromRoot [bigImg] true icEx
        (some "t") "o/r"
        [⟨200, true, some 201, true, ⟨"good", "pass"⟩, "x.png"⟩]).1.countP
        isLogAppend = 1
  ∧ logLinesAt (textLogPath "a.com")
      (process_image_optimization "a.com" headAll200 absFromRoot [bigImg] true icEx
        (some "t") "o/r"
        [⟨200, true, some 201, true, ⟨"good", "pass"⟩, "x.png"⟩]).1 = []
  ∧ logLinesAt "sites/a.com/img/log.txt"
      (process_image_optimization "a.com" headAll200 absFromRoot [bigImg] true icEx
        (some "t") "o/r"
        [⟨200, true, some 201, true, ⟨"good", "pass"⟩, "x.png"⟩]).1
      = ["- desc\n"] :=
  ⟨by decide, by decide, by decide⟩

end InstantQR
